import Mathlib

/-!
Verification of the `Tap` input-unification class
(`src/packages/threeGraphics/src/tap/index.ts`).

The class normalizes touch, mouse and pointer DOM events into a single
down/move/up stream with position tracking, pause/resume, pointer-lock
integration and duplicate-family suppression.  We embed its state and its
event handlers (`_onDown`, `_onMove`, `_onUp`, `_removeDuplicates`,
`_remove`, `_calcPosition`, the `_position` setter, the `on`/`once`
subscription wrappers and the `pointerLock` getter) as pure Lean functions
and prove the specified properties about runs of the resulting transition
system.
-/

namespace Tap

/-- The three input families of `EventTypes` (`touch`, `mouse`, `pointer`).
The per-family DOM event name triples (for example
`touchstart`/`touchmove`/`touchend`) come from the `eventMatrix` module; we
represent a DOM event name directly as a family together with a phase. -/
inductive Family where
  | touch
  | mouse
  | pointer
deriving DecidableEq, Repr

/-- The three phases of a tap interaction: the handler a DOM event is routed
to (`_onDown`, `_onMove`, `_onUp`) and the name of the republished event. -/
inductive Phase where
  | down
  | move
  | up
deriving DecidableEq, Repr

/-- A 2D coordinate, as stored in `_currentPosition` / `_lastPosition`. -/
structure Pos where
  x : Int
  y : Int
deriving DecidableEq, Repr

/-- A boolean flag per input family, as in the `active` and `registered`
objects of the class. -/
structure FamFlags where
  touch : Bool
  mouse : Bool
  pointer : Bool
deriving DecidableEq, Repr

/-- Read the flag of one family (`this.active[type]`-style indexing). -/
def FamFlags.get (f : FamFlags) : Family → Bool
  | .touch => f.touch
  | .mouse => f.mouse
  | .pointer => f.pointer

/-- Write the flag of one family (`this.active[type] = b`-style update). -/
def FamFlags.set (f : FamFlags) : Family → Bool → FamFlags
  | .touch, b => { f with touch := b }
  | .mouse, b => { f with mouse := b }
  | .pointer, b => { f with pointer := b }

/-- One entry of a `TouchEvent`'s `touches` list, with its page
coordinates (`pageX`, `pageY`). -/
structure TouchPoint where
  pageX : Int
  pageY : Int
deriving DecidableEq, Repr

/-- A DOM input event as the handlers see it.  `family` and `phase`
together encode `e.type` (for example `⟨touch, down⟩` is `touchstart`).
`touches` is the touch point list (empty both for an empty `TouchList` and
for mouse/pointer events, which lack the field: `e.touches && e.touches[0]`
is false in either case).  `hasClient` records whether the event carries
`clientX`/`clientY` fields at all (mouse and pointer events do, touch
events do not); JavaScript's `if (e.clientX)` truthiness test is then
`hasClient && clientX ≠ 0`.  `movementX`/`movementY` are the pointer-lock
movement deltas. -/
structure DomEvent where
  family : Family
  phase : Phase
  touches : List TouchPoint
  hasClient : Bool
  clientX : Int
  clientY : Int
  movementX : Int
  movementY : Int
deriving DecidableEq, Repr

/-- The mutable state of a `Tap` instance: `_isDown`, `_isPaused`, the
`active` and `registered` family-flag sets, and the two positions. -/
structure TapState where
  isDown : Bool
  isPaused : Bool
  active : FamFlags
  registered : FamFlags
  currentPosition : Pos
  lastPosition : Pos
deriving DecidableEq, Repr

/-- The state right after the constructor ran `_add`: the events of a
family are attached (and the family marked active) exactly when the
environment supports it and the static configuration enables it, which we
abstract as the parameter `a`.  Both positions start at `(-1, -1)`,
nothing is registered, `_isDown` and `_isPaused` are false. -/
def initTap (a : FamFlags) : TapState :=
  { isDown := false
    isPaused := false
    active := a
    registered := { touch := false, mouse := false, pointer := false }
    currentPosition := { x := -1, y := -1 }
    lastPosition := { x := -1, y := -1 } }

/-- The `_position` setter: a no-op when both coordinates equal the current
position, otherwise the current position is shifted into `_lastPosition`
and replaced. -/
def setPosition (s : TapState) (p : Pos) : TapState :=
  if p.x = s.currentPosition.x ∧ p.y = s.currentPosition.y then s
  else { s with lastPosition := s.currentPosition, currentPosition := p }

/-- The `_calcPosition` method: first touch point's page coordinates when
present, else the client coordinates when `e.clientX` is truthy, else the
previous current position; overridden by the movement delta when pointer
lock is engaged (`locked` models the live `document.pointerLockElement`
test behind `pointerLock.isLocked`).  Returns the pair that is published
and the state after the `_position` assignment. -/
def calcPosition (locked : Bool) (s : TapState) (e : DomEvent) : Pos × TapState :=
  let p₀ : Pos :=
    match e.touches with
    | t :: _ => { x := t.pageX, y := t.pageY }
    | [] =>
      if e.hasClient = true ∧ e.clientX ≠ 0 then { x := e.clientX, y := e.clientY }
      else s.currentPosition
  let p : Pos := if locked = true then { x := e.movementX, y := e.movementY } else p₀
  (p, setPosition s p)

/-- The `_remove` method restricted to its state effect: when the family is
active its three listeners are detached and its active flag cleared;
otherwise it returns at once.  (Detached listeners are modelled by the
ingestion guard in `ingest`.) -/
def removeFam (s : TapState) (f : Family) : TapState :=
  if s.active.get f = true then { s with active := s.active.set f false } else s

/-- The `_removeDuplicates` method: mark the firing family registered
(comparing `e.type` against `pointerdown` / `touchstart` / `mousedown`),
then suppress a `touchstart` when touch is active and pointer registered,
and a `mousedown` when mouse is active and pointer or touch registered.
Returns the updated state and the `proceed` flag. -/
def removeDuplicates (s : TapState) (e : DomEvent) : TapState × Bool :=
  let s₁ := if e.family = .pointer ∧ e.phase = .down then
      { s with registered := { s.registered with pointer := true } } else s
  let s₂ := if e.family = .touch ∧ e.phase = .down then
      { s₁ with registered := { s₁.registered with touch := true } } else s₁
  let s₃ := if e.family = .mouse ∧ e.phase = .down then
      { s₂ with registered := { s₂.registered with mouse := true } } else s₂
  if e.family = .touch ∧ e.phase = .down ∧ s₃.active.touch = true ∧
      s₃.registered.pointer = true then
    (removeFam s₃ .touch, false)
  else if e.family = .mouse ∧ e.phase = .down ∧ s₃.active.mouse = true ∧
      (s₃.registered.pointer = true ∨ s₃.registered.touch = true) then
    (removeFam s₃ .mouse, false)
  else
    (s₃, true)

/-- One event republished through the internal `Events` emitter, with the
payload fields the handlers pass (`position`, and `dragging` on `move`;
the original DOM event is represented by its family). -/
structure Emit where
  phase : Phase
  family : Family
  position : Pos
  dragging : Option Bool
deriving DecidableEq, Repr

/-- The `_onDown` handler: run duplicate suppression and stop when it says
so; otherwise set `_isDown`, compute the position and publish `down`. -/
def onDown (locked : Bool) (s : TapState) (e : DomEvent) : TapState × Option Emit :=
  let pr := removeDuplicates s e
  if pr.2 = true then
    let s₂ := { pr.1 with isDown := true }
    let c := calcPosition locked s₂ e
    (c.2, some { phase := .down, family := e.family, position := c.1, dragging := none })
  else
    (pr.1, none)

/-- The `_onMove` handler: compute the position and publish `move` with
`dragging` read from `_isDown`. -/
def onMove (locked : Bool) (s : TapState) (e : DomEvent) : TapState × Option Emit :=
  let c := calcPosition locked s e
  (c.2, some { phase := .move, family := e.family, position := c.1, dragging := some s.isDown })

/-- The `_onUp` handler: clear `_isDown`, compute the position and publish
`up`. -/
def onUp (locked : Bool) (s : TapState) (e : DomEvent) : TapState × Option Emit :=
  let s₁ := { s with isDown := false }
  let c := calcPosition locked s₁ e
  (c.2, some { phase := .up, family := e.family, position := c.1, dragging := none })

/-- Ingest one DOM event: the matching handler runs exactly when the
event's family still has its listeners attached (its active flag is true,
kept in sync with the listener registrations by `_add` and `_remove`);
otherwise the event never reaches the instance. -/
def ingest (locked : Bool) (s : TapState) (e : DomEvent) : TapState × Option Emit :=
  if s.active.get e.family = true then
    match e.phase with
    | .down => onDown locked s e
    | .move => onMove locked s e
    | .up => onUp locked s e
  else
    (s, none)

/-- Run a sequence of DOM events through `ingest`, returning the final
state. -/
def runS (locked : Bool) (s : TapState) : List DomEvent → TapState
  | [] => s
  | e :: es => runS locked (ingest locked s e).1 es

/-- All events republished while running a sequence of DOM events. -/
def runEmits (locked : Bool) (s : TapState) : List DomEvent → List Emit
  | [] => []
  | e :: es => (ingest locked s e).2.toList ++ runEmits locked (ingest locked s e).1 es

/-- Whether a down event of family `fam` is ingested somewhere in the
sequence, i.e. reaches the handlers because the family was active at that
point. -/
def ingestedDown (fam : Family) (locked : Bool) (s : TapState) : List DomEvent → Bool
  | [] => false
  | e :: es =>
    (decide (e.family = fam) && decide (e.phase = .down) && s.active.get fam) ||
      ingestedDown fam locked (ingest locked s e).1 es

/-- The callbacks currently subscribed through the `on` and `once`
accessors, identified by numbers.  An `on.*(cb)` subscription installs a
wrapper invoking `cb` only when `_isPaused` is false at delivery time; a
`once.*(cb)` subscription installs a once-listener invoking `cb`
unconditionally and removed after it fires. -/
structure Subs where
  onDown : List Nat
  onMove : List Nat
  onUp : List Nat
  onceDown : List Nat
  onceMove : List Nat
  onceUp : List Nat
deriving DecidableEq, Repr

/-- The `on.*` subscriptions for one republished event name. -/
def Subs.onFor (c : Subs) : Phase → List Nat
  | .down => c.onDown
  | .move => c.onMove
  | .up => c.onUp

/-- The `once.*` subscriptions for one republished event name. -/
def Subs.onceFor (c : Subs) : Phase → List Nat
  | .down => c.onceDown
  | .move => c.onceMove
  | .up => c.onceUp

/-- Drop the once-listeners of one event name after they fired. -/
def Subs.clearOnce (c : Subs) : Phase → Subs
  | .down => { c with onceDown := [] }
  | .move => { c with onceMove := [] }
  | .up => { c with onceUp := [] }

/-- Result of ingesting one DOM event together with callback delivery:
the instance state, the remaining subscriptions, and the user callbacks
actually invoked through `on.*` and through `once.*`. -/
structure StepResult where
  state : TapState
  subs : Subs
  invokedOn : List Nat
  invokedOnce : List Nat
deriving DecidableEq, Repr

/-- Ingest one DOM event and deliver the emitted tap event, if any, to the
subscribed callbacks: the `on.*` wrappers test `_isPaused` at delivery
time and skip the user callback while paused; the `once.*` listeners fire
unconditionally and are removed. -/
def ingestFull (locked : Bool) (s : TapState) (c : Subs) (e : DomEvent) : StepResult :=
  let r := ingest locked s e
  match r.2 with
  | none => { state := r.1, subs := c, invokedOn := [], invokedOnce := [] }
  | some em =>
    { state := r.1
      subs := c.clearOnce em.phase
      invokedOn := if r.1.isPaused = true then [] else c.onFor em.phase
      invokedOnce := c.onceFor em.phase }

/-- The synchronous effects of running a `pointerLock.request()` or
`pointerLock.exit()` promise executor: whether a `pointerlockchange`
listener was installed on the document (the only place the promise's
`resolve` continuation is ever passed) and whether a `once.down`
subscription was installed. -/
structure PlEffects where
  listenerInstalled : Bool
  onceDownInstalled : Bool
deriving DecidableEq, Repr

/-- The executor of the promise returned by `pointerLock.request()`:
it returns at once when `pointerLock.isLocked` already holds; otherwise it
installs the `pointerlockchange` listener and a `once.down` subscription
that requests the lock on the element. -/
def pointerLockRequestExec (isLocked : Bool) : PlEffects :=
  if isLocked = true then { listenerInstalled := false, onceDownInstalled := false }
  else { listenerInstalled := true, onceDownInstalled := true }

/-- The executor of the promise returned by `pointerLock.exit()`: it
returns at once when `pointerLock.isLocked` does not hold; otherwise it
installs the `pointerlockchange` listener and calls
`document.exitPointerLock()` (no `once.down` subscription). -/
def pointerLockExitExec (isLocked : Bool) : PlEffects :=
  if isLocked = true then { listenerInstalled := true, onceDownInstalled := false }
  else { listenerInstalled := false, onceDownInstalled := false }

/-- Whether the returned promise ever settles: `resolve` is invoked only
by the installed `pointerlockchange` listener, so the promise settles
exactly when that listener was installed and a `pointerlockchange` event
later fires. -/
def promiseSettles (eff : PlEffects) (changeEventFires : Bool) : Bool :=
  eff.listenerInstalled && changeEventFires

/-! ### Basic lemmas about the embedded operations -/

theorem FamFlags.get_set_self (x : FamFlags) (f : Family) (b : Bool) :
    (x.set f b).get f = b := by
  cases f <;> rfl

theorem FamFlags.get_set_of_ne (x : FamFlags) {f g : Family} (h : g ≠ f) (b : Bool) :
    (x.set f b).get g = x.get g := by
  cases f <;> cases g <;> first | rfl | exact absurd rfl h

@[simp] theorem setPosition_isDown (s : TapState) (p : Pos) :
    (setPosition s p).isDown = s.isDown := by
  unfold setPosition; split <;> rfl

@[simp] theorem setPosition_isPaused (s : TapState) (p : Pos) :
    (setPosition s p).isPaused = s.isPaused := by
  unfold setPosition; split <;> rfl

@[simp] theorem setPosition_active (s : TapState) (p : Pos) :
    (setPosition s p).active = s.active := by
  unfold setPosition; split <;> rfl

@[simp] theorem setPosition_registered (s : TapState) (p : Pos) :
    (setPosition s p).registered = s.registered := by
  unfold setPosition; split <;> rfl

@[simp] theorem calcPosition_isDown (l : Bool) (s : TapState) (e : DomEvent) :
    ((calcPosition l s e).2).isDown = s.isDown := by
  simp [calcPosition]

@[simp] theorem calcPosition_isPaused (l : Bool) (s : TapState) (e : DomEvent) :
    ((calcPosition l s e).2).isPaused = s.isPaused := by
  simp [calcPosition]

@[simp] theorem calcPosition_active (l : Bool) (s : TapState) (e : DomEvent) :
    ((calcPosition l s e).2).active = s.active := by
  simp [calcPosition]

@[simp] theorem calcPosition_registered (l : Bool) (s : TapState) (e : DomEvent) :
    ((calcPosition l s e).2).registered = s.registered := by
  simp [calcPosition]

@[simp] theorem removeFam_isDown (s : TapState) (f : Family) :
    (removeFam s f).isDown = s.isDown := by
  unfold removeFam; split <;> rfl

@[simp] theorem removeFam_isPaused (s : TapState) (f : Family) :
    (removeFam s f).isPaused = s.isPaused := by
  unfold removeFam; split <;> rfl

@[simp] theorem removeFam_registered (s : TapState) (f : Family) :
    (removeFam s f).registered = s.registered := by
  unfold removeFam; split <;> rfl

@[simp] theorem removeFam_currentPosition (s : TapState) (f : Family) :
    (removeFam s f).currentPosition = s.currentPosition := by
  unfold removeFam; split <;> rfl

@[simp] theorem removeFam_lastPosition (s : TapState) (f : Family) :
    (removeFam s f).lastPosition = s.lastPosition := by
  unfold removeFam; split <;> rfl

theorem removeDuplicates_isDown (s : TapState) (e : DomEvent) :
    ((removeDuplicates s e).1).isDown = s.isDown := by
  rcases e with ⟨f, p, tch, hc, cx, cy, mx, my⟩
  cases f <;> cases p <;> simp [removeDuplicates, removeFam] <;> (repeat' split) <;> rfl

theorem removeDuplicates_isPaused (s : TapState) (e : DomEvent) :
    ((removeDuplicates s e).1).isPaused = s.isPaused := by
  rcases e with ⟨f, p, tch, hc, cx, cy, mx, my⟩
  cases f <;> cases p <;> simp [removeDuplicates, removeFam] <;> (repeat' split) <;> rfl

theorem removeDuplicates_currentPosition (s : TapState) (e : DomEvent) :
    ((removeDuplicates s e).1).currentPosition = s.currentPosition := by
  rcases e with ⟨f, p, tch, hc, cx, cy, mx, my⟩
  cases f <;> cases p <;> simp [removeDuplicates, removeFam] <;> (repeat' split) <;> rfl

theorem removeDuplicates_lastPosition (s : TapState) (e : DomEvent) :
    ((removeDuplicates s e).1).lastPosition = s.lastPosition := by
  rcases e with ⟨f, p, tch, hc, cx, cy, mx, my⟩
  cases f <;> cases p <;> simp [removeDuplicates, removeFam] <;> (repeat' split) <;> rfl

theorem removeDuplicates_reg_mono (s : TapState) (e : DomEvent) (f : Family)
    (h : s.registered.get f = true) :
    ((removeDuplicates s e).1).registered.get f = true := by
  rcases e with ⟨g, p, tch, hc, cx, cy, mx, my⟩
  cases g <;> cases p <;> cases f <;>
    simp_all [removeDuplicates, removeFam, FamFlags.get] <;>
    (repeat' split) <;> simp_all

theorem removeDuplicates_sets_reg (s : TapState) (e : DomEvent) (hph : e.phase = .down) :
    ((removeDuplicates s e).1).registered.get e.family = true := by
  rcases e with ⟨g, p, tch, hc, cx, cy, mx, my⟩
  cases g <;> cases p <;>
    simp_all [removeDuplicates, removeFam, FamFlags.get] <;>
    (repeat' split) <;> simp_all

theorem ingest_isPaused (l : Bool) (s : TapState) (e : DomEvent) :
    ((ingest l s e).1).isPaused = s.isPaused := by
  rcases e with ⟨g, p, tch, hc, cx, cy, mx, my⟩
  cases p <;>
    simp [ingest, onDown, onMove, onUp, removeDuplicates_isPaused] <;>
    (repeat' split) <;> simp [removeDuplicates_isPaused]

theorem ingest_reg_mono (l : Bool) (s : TapState) (e : DomEvent) (f : Family)
    (h : s.registered.get f = true) :
    ((ingest l s e).1).registered.get f = true := by
  rcases e with ⟨g, p, tch, hc, cx, cy, mx, my⟩
  cases p <;>
    simp [ingest, onDown, onMove, onUp] <;>
    (repeat' split) <;>
    simp_all [removeDuplicates_reg_mono _ _ _ h]

theorem ingest_sets_reg (l : Bool) (s : TapState) (e : DomEvent)
    (hph : e.phase = .down) (hact : s.active.get e.family = true) :
    ((ingest l s e).1).registered.get e.family = true := by
  have h := removeDuplicates_sets_reg s e hph
  rcases e with ⟨g, p, tch, hc, cx, cy, mx, my⟩
  cases p <;>
    simp_all [ingest, onDown] <;>
    (repeat' split) <;> simp_all

theorem runS_reg_mono (l : Bool) (evs : List DomEvent) (s : TapState) (f : Family)
    (h : s.registered.get f = true) :
    ((runS l s evs)).registered.get f = true := by
  induction evs generalizing s with
  | nil => exact h
  | cons e es ih => exact ih _ (ingest_reg_mono l s e f h)

theorem ingestedDown_reg (fam : Family) (l : Bool) (evs : List DomEvent) (s : TapState)
    (h : ingestedDown fam l s evs = true) :
    (runS l s evs).registered.get fam = true := by
  induction evs generalizing s with
  | nil => simp [ingestedDown] at h
  | cons e es ih =>
    rw [ingestedDown] at h
    rw [runS]
    rcases Bool.or_eq_true_iff.mp h with h₁ | h₂
    · have he : (e.family = fam ∧ e.phase = .down) ∧ s.active.get fam = true := by
        simpa using h₁
      have : ((ingest l s e).1).registered.get fam = true := by
        have := ingest_sets_reg l s e he.1.2 (he.1.1 ▸ he.2)
        rwa [he.1.1] at this
      exact runS_reg_mono l es _ fam this
    · exact ih _ h₂

theorem touch_down_suppressed (l : Bool) (s : TapState) (e : DomEvent)
    (hreg : s.registered.pointer = true) (hact : s.active.touch = true)
    (hf : e.family = .touch) (hph : e.phase = .down) :
    ingest l s e =
      ({ s with registered := { s.registered with touch := true },
                active := { s.active with touch := false } }, none) := by
  rcases e with ⟨g, p, tch, hc, cx, cy, mx, my⟩
  cases g <;> cases p <;>
    simp_all [ingest, onDown, removeDuplicates, removeFam, FamFlags.get, FamFlags.set]

theorem mouse_down_suppressed (l : Bool) (s : TapState) (e : DomEvent)
    (hreg : s.registered.pointer = true ∨ s.registered.touch = true)
    (hact : s.active.mouse = true)
    (hf : e.family = .mouse) (hph : e.phase = .down) :
    ingest l s e =
      ({ s with registered := { s.registered with mouse := true },
                active := { s.active with mouse := false } }, none) := by
  rcases e with ⟨g, p, tch, hc, cx, cy, mx, my⟩
  cases g <;> cases p <;>
    simp_all [ingest, onDown, removeDuplicates, removeFam, FamFlags.get, FamFlags.set]

/-- Shared concrete configuration for witnesses: all three families attached. -/
def allActive : FamFlags := { touch := true, mouse := true, pointer := true }

/-- Shared concrete event maker for witnesses: an event of a family and
phase carrying no touch points, no client coordinates and zero movement. -/
def plainEvent (f : Family) (p : Phase) : DomEvent :=
  { family := f, phase := p, touches := [], hasClient := false,
    clientX := 0, clientY := 0, movementX := 0, movementY := 0 }

theorem removeDuplicates_active_false (s : TapState) (e : DomEvent) (f : Family)
    (h : s.active.get f = false) :
    ((removeDuplicates s e).1).active.get f = false := by
  rcases e with ⟨g, p, tch, hc, cx, cy, mx, my⟩
  cases g <;> cases p <;> cases f <;>
    simp_all [removeDuplicates, removeFam, FamFlags.get, FamFlags.set] <;>
    (repeat' split) <;> simp_all

theorem ingest_active_false (l : Bool) (s : TapState) (e : DomEvent) (f : Family)
    (h : s.active.get f = false) :
    ((ingest l s e).1).active.get f = false := by
  rcases e with ⟨g, p, tch, hc, cx, cy, mx, my⟩
  cases p <;>
    simp [ingest, onDown, onMove, onUp] <;>
    (repeat' split) <;>
    simp_all [removeDuplicates_active_false _ _ _ h]

theorem runS_active_false (l : Bool) (evs : List DomEvent) (s : TapState) (f : Family)
    (h : s.active.get f = false) :
    (runS l s evs).active.get f = false := by
  induction evs generalizing s with
  | nil => exact h
  | cons e es ih => exact ih _ (ingest_active_false l s e f h)

theorem touch_inactive_after_down (l : Bool) (rest : List DomEvent) (s : TapState)
    (hreg : s.registered.pointer = true)
    (hdn : ingestedDown .touch l s rest = true) :
    (runS l s rest).active.touch = false := by
  induction rest generalizing s with
  | nil => simp [ingestedDown] at hdn
  | cons e es ih =>
    rw [ingestedDown] at hdn
    rw [runS]
    rcases Bool.or_eq_true_iff.mp hdn with h₁ | h₂
    · have he : (e.family = .touch ∧ e.phase = .down) ∧ s.active.get .touch = true := by
        simpa using h₁
      have hsup := touch_down_suppressed l s e hreg
        (by simpa [FamFlags.get] using he.2) he.1.1 he.1.2
      have : ((ingest l s e).1).active.get .touch = false := by
        rw [hsup]; rfl
      simpa [FamFlags.get] using runS_active_false l es _ .touch this
    · have hreg' : ((ingest l s e).1).registered.pointer = true := by
        simpa [FamFlags.get] using
          ingest_reg_mono l s e .pointer (by simpa [FamFlags.get] using hreg)
      exact ih _ hreg' h₂

theorem mouse_inactive_after_down (l : Bool) (rest : List DomEvent) (s : TapState)
    (hreg : s.registered.pointer = true ∨ s.registered.touch = true)
    (hdn : ingestedDown .mouse l s rest = true) :
    (runS l s rest).active.mouse = false := by
  induction rest generalizing s with
  | nil => simp [ingestedDown] at hdn
  | cons e es ih =>
    rw [ingestedDown] at hdn
    rw [runS]
    rcases Bool.or_eq_true_iff.mp hdn with h₁ | h₂
    · have he : (e.family = .mouse ∧ e.phase = .down) ∧ s.active.get .mouse = true := by
        simpa using h₁
      have hsup := mouse_down_suppressed l s e hreg
        (by simpa [FamFlags.get] using he.2) he.1.1 he.1.2
      have : ((ingest l s e).1).active.get .mouse = false := by
        rw [hsup]; rfl
      simpa [FamFlags.get] using runS_active_false l es _ .mouse this
    · have hreg' : ((ingest l s e).1).registered.pointer = true ∨
          ((ingest l s e).1).registered.touch = true := by
        rcases hreg with h | h
        · exact Or.inl (by simpa [FamFlags.get] using
            ingest_reg_mono l s e .pointer (by simpa [FamFlags.get] using h))
        · exact Or.inr (by simpa [FamFlags.get] using
            ingest_reg_mono l s e .touch (by simpa [FamFlags.get] using h))
      exact ih _ hreg' h₂

/-! ### The claims -/

/-- C1: in any event sequence from construction in which a `pointerdown`
has already been ingested and the touch family is still active, ingesting
a `touchstart` clears the touch family's active flag (detaching its
listeners) and publishes no event for it. -/
theorem c1_touchstart_suppressed_after_pointerdown (l : Bool) (a : FamFlags)
    (evs : List DomEvent) (e : DomEvent)
    (hp : ingestedDown .pointer l (initTap a) evs = true)
    (ht : (runS l (initTap a) evs).active.touch = true)
    (hf : e.family = .touch) (hph : e.phase = .down) :
    ((ingest l (runS l (initTap a) evs) e).1).active.touch = false ∧
      (ingest l (runS l (initTap a) evs) e).2 = none := by
  have hreg : (runS l (initTap a) evs).registered.pointer = true := by
    simpa [FamFlags.get] using ingestedDown_reg .pointer l evs (initTap a) hp
  rw [touch_down_suppressed l _ e hreg ht hf hph]
  exact ⟨rfl, rfl⟩

/-- Witness for C1 at a concrete run: a `pointerdown` followed by a
`touchstart`, all families attached. -/
theorem c1_witness :
    ((ingest false (runS false (initTap allActive) [plainEvent .pointer .down])
        (plainEvent .touch .down)).1).active.touch = false ∧
      (ingest false (runS false (initTap allActive) [plainEvent .pointer .down])
        (plainEvent .touch .down)).2 = none :=
  c1_touchstart_suppressed_after_pointerdown false allActive
    [plainEvent .pointer .down] (plainEvent .touch .down)
    (by decide) (by decide) rfl rfl

/-- C2: in any event sequence from construction in which a `pointerdown`
or a `touchstart` has already been ingested and the mouse family is still
active, ingesting a `mousedown` clears the mouse family's active flag
(detaching its listeners) and publishes no event for it. -/
theorem c2_mousedown_suppressed_after_pointer_or_touch (l : Bool) (a : FamFlags)
    (evs : List DomEvent) (e : DomEvent)
    (hp : ingestedDown .pointer l (initTap a) evs = true ∨
      ingestedDown .touch l (initTap a) evs = true)
    (hm : (runS l (initTap a) evs).active.mouse = true)
    (hf : e.family = .mouse) (hph : e.phase = .down) :
    ((ingest l (runS l (initTap a) evs) e).1).active.mouse = false ∧
      (ingest l (runS l (initTap a) evs) e).2 = none := by
  have hreg : (runS l (initTap a) evs).registered.pointer = true ∨
      (runS l (initTap a) evs).registered.touch = true := by
    rcases hp with h | h
    · exact Or.inl (by simpa [FamFlags.get] using ingestedDown_reg .pointer l evs (initTap a) h)
    · exact Or.inr (by simpa [FamFlags.get] using ingestedDown_reg .touch l evs (initTap a) h)
  rw [mouse_down_suppressed l _ e hreg hm hf hph]
  exact ⟨rfl, rfl⟩

/-- Witness for C2 at a concrete run: a `touchstart` followed by a
`mousedown`, all families attached. -/
theorem c2_witness :
    ((ingest false (runS false (initTap allActive) [plainEvent .touch .down])
        (plainEvent .mouse .down)).1).active.mouse = false ∧
      (ingest false (runS false (initTap allActive) [plainEvent .touch .down])
        (plainEvent .mouse .down)).2 = none :=
  c2_mousedown_suppressed_after_pointer_or_touch false allActive
    [plainEvent .touch .down] (plainEvent .mouse .down)
    (Or.inr (by decide)) (by decide) rfl rfl

/-- C10: a down event discarded by duplicate suppression changes only the
suppression bookkeeping: the firing family's registered flag is set and
its active flag cleared, every other field (`isDown`, both positions, the
other families' flags) is untouched, and nothing is published. -/
theorem c10_suppressed_down_touches_only_bookkeeping (l : Bool) (s : TapState) (e : DomEvent)
    (hph : e.phase = .down) (hact : s.active.get e.family = true)
    (hsup : (removeDuplicates s e).2 = false) :
    (ingest l s e).1 =
      { s with registered := s.registered.set e.family true,
               active := s.active.set e.family false } ∧
      (ingest l s e).2 = none := by
  rcases e with ⟨g, p, tch, hc, cx, cy, mx, my⟩
  cases g <;> cases p <;>
    simp_all [ingest, onDown, removeDuplicates, removeFam, FamFlags.get, FamFlags.set] <;>
    (repeat' split at hsup) <;> simp_all

/-- Witness for C10: a `touchstart` suppressed because pointer is already
registered; only the touch flags change and nothing is emitted. -/
theorem c10_witness :
    (ingest false (runS false (initTap allActive) [plainEvent .pointer .down])
        (plainEvent .touch .down)).1 =
      { runS false (initTap allActive) [plainEvent .pointer .down] with
          registered := (runS false (initTap allActive)
            [plainEvent .pointer .down]).registered.set .touch true,
          active := (runS false (initTap allActive)
            [plainEvent .pointer .down]).active.set .touch false } ∧
      (ingest false (runS false (initTap allActive) [plainEvent .pointer .down])
        (plainEvent .touch .down)).2 = none :=
  c10_suppressed_down_touches_only_bookkeeping false
    (runS false (initTap allActive) [plainEvent .pointer .down])
    (plainEvent .touch .down) rfl (by decide) (by decide)

/-- C3 is false as stated: right after a `pointerdown` is ingested with
all families attached, pointer is registered yet both the touch and the
mouse active flags are still true — the claim's invariant fails in this
reachable state. -/
theorem c3_counterexample :
    (runS false (initTap allActive) [plainEvent .pointer .down]).registered.pointer = true ∧
      (runS false (initTap allActive) [plainEvent .pointer .down]).active.touch = true ∧
      (runS false (initTap allActive) [plainEvent .pointer .down]).active.mouse = true := by
  decide

/-- C3 (amended): once a `pointerdown` has been ingested, the touch
(resp. mouse) family's active flag is false in every state after a touch
(resp. mouse) down event is subsequently ingested; the flags are cleared
only when such a down event actually arrives, so in particular at most
one of touch and mouse can survive its own down event from then on. -/
theorem c3_amended_pointer_supersedes (l : Bool) (a : FamFlags)
    (evs rest : List DomEvent)
    (hp : ingestedDown .pointer l (initTap a) evs = true) :
    (ingestedDown .touch l (runS l (initTap a) evs) rest = true →
      (runS l (runS l (initTap a) evs) rest).active.touch = false) ∧
    (ingestedDown .mouse l (runS l (initTap a) evs) rest = true →
      (runS l (runS l (initTap a) evs) rest).active.mouse = false) := by
  have hreg : (runS l (initTap a) evs).registered.pointer = true := by
    simpa [FamFlags.get] using ingestedDown_reg .pointer l evs (initTap a) hp
  exact ⟨fun h => touch_inactive_after_down l rest _ hreg h,
    fun h => mouse_inactive_after_down l rest _ (Or.inl hreg) h⟩

/-- Witness for the amended C3: a `pointerdown`, then a `touchstart` and a
`mousedown`; afterwards both the touch and the mouse family are inactive. -/
theorem c3_amended_witness :
    (ingestedDown .touch false (runS false (initTap allActive) [plainEvent .pointer .down])
        [plainEvent .touch .down, plainEvent .mouse .down] = true →
      (runS false (runS false (initTap allActive) [plainEvent .pointer .down])
        [plainEvent .touch .down, plainEvent .mouse .down]).active.touch = false) ∧
    (ingestedDown .mouse false (runS false (initTap allActive) [plainEvent .pointer .down])
        [plainEvent .touch .down, plainEvent .mouse .down] = true →
      (runS false (runS false (initTap allActive) [plainEvent .pointer .down])
        [plainEvent .touch .down, plainEvent .mouse .down]).active.mouse = false) :=
  c3_amended_pointer_supersedes false allActive [plainEvent .pointer .down]
    [plainEvent .touch .down, plainEvent .mouse .down] (by decide)

theorem init_down_run (l : Bool) (a : FamFlags) (d : DomEvent)
    (ha : a.get d.family = true) (hdp : d.phase = .down) :
    ((ingest l (initTap a) d).1).isDown = true ∧
      ((ingest l (initTap a) d).1).active = a := by
  rcases d with ⟨g, p, tch, hc, cx, cy, mx, my⟩
  cases g <;> cases p <;>
    simp_all [ingest, onDown, removeDuplicates, removeFam, initTap,
      FamFlags.get, FamFlags.set, calcPosition, setPosition] <;>
    (repeat' split) <;> simp_all

theorem move_preserves (l : Bool) (t : TapState) (m : DomEvent)
    (hmp : m.phase = .move) :
    ((ingest l t m).1).isDown = t.isDown ∧ ((ingest l t m).1).active = t.active := by
  rcases m with ⟨g, p, tch, hc, cx, cy, mx, my⟩
  cases p <;> simp_all [ingest, onMove] <;> (repeat' split) <;> simp_all

theorem runS_moves (l : Bool) (ms : List DomEvent)
    (hm : ∀ m ∈ ms, m.phase = .move) (t : TapState) :
    (runS l t ms).isDown = t.isDown ∧ (runS l t ms).active = t.active := by
  induction ms generalizing t with
  | nil => exact ⟨rfl, rfl⟩
  | cons m rest ih =>
    have h₁ := move_preserves l t m (hm m (List.mem_cons_self m rest))
    have h₂ := ih (fun x hx => hm x (List.mem_cons_of_mem m hx)) (ingest l t m).1
    exact ⟨h₂.1.trans h₁.1, h₂.2.trans h₁.2⟩

theorem up_clears_isDown (l : Bool) (t : TapState) (u : DomEvent)
    (hup : u.phase = .up) (hact : t.active.get u.family = true) :
    ((ingest l t u).1).isDown = false := by
  rcases u with ⟨g, p, tch, hc, cx, cy, mx, my⟩
  cases p <;> simp_all [ingest, onUp]

/-- C4: from construction, for a down event of an attached family whose
down is not suppressed, followed by moves of that family and an up of that
family, `isDown` is false in the initial state, true in every state
strictly between the down and the up ingestion (after the down and after
every prefix of the moves), and false again after the up. -/
theorem c4_isDown_between_down_and_up (l : Bool) (a : FamFlags) (fam : Family)
    (d u : DomEvent) (ms : List DomEvent)
    (ha : a.get fam = true)
    (hd : d.family = fam) (hdp : d.phase = .down)
    (hns : (ingest l (initTap a) d).2 ≠ none)
    (hm : ∀ m ∈ ms, m.family = fam ∧ m.phase = .move)
    (hu : u.family = fam) (hup : u.phase = .up) :
    (initTap a).isDown = false ∧
      (∀ n : Nat, (runS l (ingest l (initTap a) d).1 (ms.take n)).isDown = true) ∧
      ((ingest l (runS l (ingest l (initTap a) d).1 ms) u).1).isDown = false := by
  have hinit := init_down_run l a d (hd ▸ ha) hdp
  refine ⟨rfl, ?_, ?_⟩
  · intro n
    have hms : ∀ m ∈ ms.take n, m.phase = .move :=
      fun m hmem => (hm m (List.take_subset n ms hmem)).2
    exact (runS_moves l (ms.take n) hms _).1.trans hinit.1
  · have hms : ∀ m ∈ ms, m.phase = .move := fun m hmem => (hm m hmem).2
    have hrun := runS_moves l ms hms (ingest l (initTap a) d).1
    refine up_clears_isDown l _ u hup ?_
    rw [hrun.2, hinit.2, hu]
    exact ha

/-- Witness for C4: a mouse down at the origin, one mouse move, then a
mouse up, with all families attached. -/
theorem c4_witness :
    (initTap allActive).isDown = false ∧
      (∀ n : Nat, (runS false (ingest false (initTap allActive) (plainEvent .mouse .down)).1
        ((List.replicate 1 (plainEvent .mouse .move)).take n)).isDown = true) ∧
      ((ingest false (runS false (ingest false (initTap allActive) (plainEvent .mouse .down)).1
        (List.replicate 1 (plainEvent .mouse .move))) (plainEvent .mouse .up)).1).isDown = false :=
  c4_isDown_between_down_and_up false allActive .mouse
    (plainEvent .mouse .down) (plainEvent .mouse .up)
    (List.replicate 1 (plainEvent .mouse .move))
    (by decide) rfl rfl (by decide)
    (by intro m hm; simp [List.replicate] at hm; subst hm; exact ⟨rfl, rfl⟩)
    rfl rfl

theorem calcPosition_fst_locked (s : TapState) (e : DomEvent) :
    (calcPosition true s e).1 = { x := e.movementX, y := e.movementY } := by
  simp [calcPosition]

/-- The position-selection rule in the words of the amended C5: the first
touch point's page coordinates when there is one; else, when the event
carries client coordinates and `clientX` is nonzero, exactly
`(clientX, clientY)`; else (including a present but zero `clientX`) the
previous current position. -/
def specPosition (cur : Pos) (e : DomEvent) : Pos :=
  match e.touches with
  | t :: _ => { x := t.pageX, y := t.pageY }
  | [] =>
    if e.hasClient = true ∧ e.clientX ≠ 0 then { x := e.clientX, y := e.clientY }
    else cur

theorem calcPosition_fst_unlocked (s : TapState) (e : DomEvent) :
    (calcPosition false s e).1 = specPosition s.currentPosition e := by
  rcases e with ⟨g, p, tch, hc, cx, cy, mx, my⟩
  cases tch <;> simp [calcPosition, specPosition]

/-- A mouse move carrying client coordinates with `clientX = 0`: the
JavaScript truthiness test `if (e.clientX)` is false, so the code falls
back to the previous position. -/
def zeroClientMove : DomEvent :=
  { family := .mouse, phase := .move, touches := [], hasClient := true,
    clientX := 0, clientY := 5, movementX := 7, movementY := 8 }

/-- C5 is false as stated: an event with client coordinates `(0, 5)` and
no touch points, ingested unlocked from the initial state, is published at
the fallback position `(-1, -1)` (the previous `currentPosition`), not at
its client coordinates `(0, 5)`. -/
theorem c5_counterexample :
    (ingest false (initTap allActive) zeroClientMove).2 =
      some { phase := .move, family := .mouse,
             position := { x := -1, y := -1 }, dragging := some false } ∧
      ({ x := -1, y := -1 } : Pos) ≠ ({ x := 0, y := 5 } : Pos) := by
  decide

/-- C5 (amended): with pointer lock disengaged, every published position
is computed as: the first touch point's page coordinates if the event
carries touch points; else exactly `(clientX, clientY)` if it carries
client coordinates with a nonzero (truthy) `clientX`; else the previous
`currentPosition` — in particular an event whose `clientX` is present but
zero uses the fallback, not its client coordinates. -/
theorem c5_amended_position_selection (s : TapState) (e : DomEvent)
    (t : TapState) (em : Emit)
    (h : ingest false s e = (t, some em)) :
    em.position = specPosition s.currentPosition e := by
  have key : ∀ s₀ : TapState, (calcPosition false s₀ e).1 = specPosition s₀.currentPosition e :=
    fun s₀ => calcPosition_fst_unlocked s₀ e
  have hcur := removeDuplicates_currentPosition s e
  rcases hp : e.phase with _ | _ | _ <;>
    simp_all [ingest, onDown, onMove, onUp] <;>
    (repeat' split at h) <;> (try simp_all) <;> (try rw [← h.2])

/-- Witness for the amended C5: a mouse move with nonzero client
coordinates `(3, 5)` is published exactly there. -/
theorem c5_amended_witness :
    ({ phase := .move, family := .mouse, position := { x := 3, y := 5 },
       dragging := some false } : Emit).position =
      specPosition (initTap allActive).currentPosition
        { family := .mouse, phase := .move, touches := [], hasClient := true,
          clientX := 3, clientY := 5, movementX := 7, movementY := 8 } :=
  c5_amended_position_selection (initTap allActive)
    { family := .mouse, phase := .move, touches := [], hasClient := true,
      clientX := 3, clientY := 5, movementX := 7, movementY := 8 }
    (setPosition (initTap allActive) { x := 3, y := 5 })
    { phase := .move, family := .mouse, position := { x := 3, y := 5 },
      dragging := some false }
    (by decide)

/-- C7: while pointer lock is engaged, every published position equals the
event's movement delta, whatever coordinate fields the event carries. -/
theorem c7_locked_position_is_movement_delta (s : TapState) (e : DomEvent)
    (t : TapState) (em : Emit)
    (h : ingest true s e = (t, some em)) :
    em.position = { x := e.movementX, y := e.movementY } := by
  have key : ∀ s₀ : TapState,
      (calcPosition true s₀ e).1 = { x := e.movementX, y := e.movementY } :=
    fun s₀ => calcPosition_fst_locked s₀ e
  rcases hp : e.phase with _ | _ | _ <;>
    simp_all [ingest, onDown, onMove, onUp] <;>
    (repeat' split at h) <;> (try simp_all) <;> (try rw [← h.2])

/-- Witness for C7: a locked move with touch points and client coordinates
present is nevertheless published at its movement delta `(7, 8)`. -/
theorem c7_witness :
    ({ phase := .move, family := .mouse, position := { x := 7, y := 8 },
       dragging := some false } : Emit).position =
      { x := ({ family := .mouse, phase := .move, touches := [{ pageX := 1, pageY := 2 }],
                hasClient := true, clientX := 3, clientY := 5,
                movementX := 7, movementY := 8 } : DomEvent).movementX,
        y := ({ family := .mouse, phase := .move, touches := [{ pageX := 1, pageY := 2 }],
                hasClient := true, clientX := 3, clientY := 5,
                movementX := 7, movementY := 8 } : DomEvent).movementY } :=
  c7_locked_position_is_movement_delta (initTap allActive)
    { family := .mouse, phase := .move, touches := [{ pageX := 1, pageY := 2 }],
      hasClient := true, clientX := 3, clientY := 5, movementX := 7, movementY := 8 }
    (setPosition (initTap allActive) { x := 7, y := 8 })
    { phase := .move, family := .mouse, position := { x := 7, y := 8 },
      dragging := some false }
    (by decide)

/-- C8: a position update equal to the current position leaves both
`currentPosition` and `lastPosition` unchanged; a differing one shifts the
current position into `lastPosition` and stores the new coordinate. -/
theorem c8_position_history_update (s : TapState) (p : Pos) :
    setPosition s p =
      if p = s.currentPosition then s
      else { s with lastPosition := s.currentPosition, currentPosition := p } := by
  rcases p with ⟨px, py⟩
  rcases hc : s.currentPosition with ⟨cx, cy⟩
  rw [setPosition, hc]
  by_cases hx : px = cx <;> by_cases hy : py = cy <;> simp_all

theorem setPosition_pause (dn pz : Bool) (act reg : FamFlags) (cur last : Pos)
    (b : Bool) (p : Pos) :
    setPosition ⟨dn, b, act, reg, cur, last⟩ p =
      { setPosition ⟨dn, pz, act, reg, cur, last⟩ p with isPaused := b } := by
  by_cases h : p.x = cur.x ∧ p.y = cur.y <;> simp [setPosition, h]

theorem calcPosition_pause (l : Bool) (dn pz : Bool) (act reg : FamFlags)
    (cur last : Pos) (b : Bool) (e : DomEvent) :
    calcPosition l ⟨dn, b, act, reg, cur, last⟩ e =
      ((calcPosition l ⟨dn, pz, act, reg, cur, last⟩ e).1,
        { (calcPosition l ⟨dn, pz, act, reg, cur, last⟩ e).2 with isPaused := b }) := by
  rcases e with ⟨g, p, tch, hc, cx, cy, mx, my⟩
  cases tch <;>
    (dsimp only [calcPosition]
     exact Prod.ext_iff.mpr ⟨rfl, setPosition_pause dn pz act reg cur last b _⟩)

theorem removeFam_pause (dn pz : Bool) (act reg : FamFlags) (cur last : Pos)
    (b : Bool) (f : Family) :
    removeFam ⟨dn, b, act, reg, cur, last⟩ f =
      { removeFam ⟨dn, pz, act, reg, cur, last⟩ f with isPaused := b } := by
  by_cases h : act.get f = true <;> simp [removeFam, h]

theorem removeDuplicates_pause (dn pz : Bool) (act reg : FamFlags) (cur last : Pos)
    (b : Bool) (e : DomEvent) :
    removeDuplicates ⟨dn, b, act, reg, cur, last⟩ e =
      ({ (removeDuplicates ⟨dn, pz, act, reg, cur, last⟩ e).1 with isPaused := b },
        (removeDuplicates ⟨dn, pz, act, reg, cur, last⟩ e).2) := by
  rcases e with ⟨g, p, tch, hc, cx, cy, mx, my⟩
  cases g <;> cases p <;>
    simp [removeDuplicates, removeFam] <;> (repeat' split) <;> simp_all

theorem onMove_pause (l : Bool) (dn pz : Bool) (act reg : FamFlags) (cur last : Pos)
    (b : Bool) (e : DomEvent) :
    onMove l ⟨dn, b, act, reg, cur, last⟩ e =
      ({ (onMove l ⟨dn, pz, act, reg, cur, last⟩ e).1 with isPaused := b },
        (onMove l ⟨dn, pz, act, reg, cur, last⟩ e).2) := by
  dsimp only [onMove]
  rw [calcPosition_pause l dn pz act reg cur last b e]

theorem onUp_pause (l : Bool) (dn pz : Bool) (act reg : FamFlags) (cur last : Pos)
    (b : Bool) (e : DomEvent) :
    onUp l ⟨dn, b, act, reg, cur, last⟩ e =
      ({ (onUp l ⟨dn, pz, act, reg, cur, last⟩ e).1 with isPaused := b },
        (onUp l ⟨dn, pz, act, reg, cur, last⟩ e).2) := by
  dsimp only [onUp]
  rw [calcPosition_pause l false pz act reg cur last b e]

theorem onDown_pause (l : Bool) (dn pz : Bool) (act reg : FamFlags) (cur last : Pos)
    (b : Bool) (e : DomEvent) :
    onDown l ⟨dn, b, act, reg, cur, last⟩ e =
      ({ (onDown l ⟨dn, pz, act, reg, cur, last⟩ e).1 with isPaused := b },
        (onDown l ⟨dn, pz, act, reg, cur, last⟩ e).2) := by
  dsimp only [onDown]
  rw [removeDuplicates_pause dn pz act reg cur last b e]
  rcases h1 : (removeDuplicates ⟨dn, pz, act, reg, cur, last⟩ e).1 with
    ⟨dn₁, pz₁, act₁, reg₁, cur₁, last₁⟩
  cases h2 : (removeDuplicates ⟨dn, pz, act, reg, cur, last⟩ e).2
  · simp
  · dsimp only
    rw [calcPosition_pause l true pz₁ act₁ reg₁ cur₁ last₁ b e]
    simp

theorem ingest_pause (l : Bool) (s : TapState) (b : Bool) (e : DomEvent) :
    ingest l { s with isPaused := b } e =
      ({ (ingest l s e).1 with isPaused := b }, (ingest l s e).2) := by
  rcases s with ⟨dn, pz, act, reg, cur, last⟩
  dsimp only [ingest]
  by_cases hg : act.get e.family = true
  · rw [if_pos hg, if_pos hg]
    cases e.phase
    · exact onDown_pause l dn pz act reg cur last b e
    · exact onMove_pause l dn pz act reg cur last b e
    · exact onUp_pause l dn pz act reg cur last b e
  · rw [if_neg hg, if_neg hg]

theorem pause_eta (t : TapState) (b : Bool) (h : t.isPaused = b) :
    { t with isPaused := b } = t := by
  rcases t with ⟨dn, pz, act, reg, cur, last⟩
  simp_all

/-- C6: a down/move/up event ingested while paused invokes no `on.*`
callback, invokes exactly the `once.*` callbacks that an unpaused
ingestion would invoke, updates the subscriptions the same way, and drives
the internal state through exactly the transition of the unpaused
ingestion (with `isPaused` itself still true). -/
theorem c6_pause_gates_only_on_callbacks (l : Bool) (s : TapState) (c : Subs)
    (e : DomEvent) (hp : s.isPaused = true) :
    (ingestFull l s c e).invokedOn = [] ∧
      (ingestFull l s c e).invokedOnce =
        (ingestFull l { s with isPaused := false } c e).invokedOnce ∧
      (ingestFull l s c e).subs = (ingestFull l { s with isPaused := false } c e).subs ∧
      (ingestFull l s c e).state =
        { (ingestFull l { s with isPaused := false } c e).state with isPaused := true } := by
  have hcomm := ingest_pause l s false e
  have hpz' : ((ingest l s e).1).isPaused = true := by
    rw [ingest_isPaused l s e, hp]
  rw [ingestFull, ingestFull, hcomm]
  cases hout : (ingest l s e).2 with
  | none => exact ⟨rfl, rfl, rfl, (pause_eta _ true hpz').symm⟩
  | some em =>
    refine ⟨?_, rfl, rfl, (pause_eta _ true hpz').symm⟩
    simp [hpz']

/-- Witness for C6: a mouse down ingested in a paused initial state with
one subscriber of each kind; no `on.down` callback runs, the `once.down`
callback runs as it would unpaused, and the state transition matches the
unpaused one. -/
theorem c6_witness :
    (ingestFull false { initTap allActive with isPaused := true }
        { onDown := [1], onMove := [2], onUp := [3],
          onceDown := [4], onceMove := [5], onceUp := [6] }
        (plainEvent .mouse .down)).invokedOn = [] ∧
      (ingestFull false { initTap allActive with isPaused := true }
        { onDown := [1], onMove := [2], onUp := [3],
          onceDown := [4], onceMove := [5], onceUp := [6] }
        (plainEvent .mouse .down)).invokedOnce =
      (ingestFull false { { initTap allActive with isPaused := true } with isPaused := false }
        { onDown := [1], onMove := [2], onUp := [3],
          onceDown := [4], onceMove := [5], onceUp := [6] }
        (plainEvent .mouse .down)).invokedOnce ∧
      (ingestFull false { initTap allActive with isPaused := true }
        { onDown := [1], onMove := [2], onUp := [3],
          onceDown := [4], onceMove := [5], onceUp := [6] }
        (plainEvent .mouse .down)).subs =
      (ingestFull false { { initTap allActive with isPaused := true } with isPaused := false }
        { onDown := [1], onMove := [2], onUp := [3],
          onceDown := [4], onceMove := [5], onceUp := [6] }
        (plainEvent .mouse .down)).subs ∧
      (ingestFull false { initTap allActive with isPaused := true }
        { onDown := [1], onMove := [2], onUp := [3],
          onceDown := [4], onceMove := [5], onceUp := [6] }
        (plainEvent .mouse .down)).state =
      { (ingestFull false { { initTap allActive with isPaused := true } with isPaused := false }
          { onDown := [1], onMove := [2], onUp := [3],
            onceDown := [4], onceMove := [5], onceUp := [6] }
          (plainEvent .mouse .down)).state with isPaused := true } :=
  c6_pause_gates_only_on_callbacks false { initTap allActive with isPaused := true }
    { onDown := [1], onMove := [2], onUp := [3],
      onceDown := [4], onceMove := [5], onceUp := [6] }
    (plainEvent .mouse .down) rfl

/-- C9: requesting pointer lock while already locked, and exiting while
not locked, run the no-op path of the promise executor: no
`pointerlockchange` listener and no `once.down` subscription is installed,
and since `resolve` is only ever invoked by that listener the returned
promise never settles, whether or not a `pointerlockchange` event ever
fires. -/
theorem c9_pointer_lock_noop_never_settles :
    pointerLockRequestExec true =
      { listenerInstalled := false, onceDownInstalled := false } ∧
      pointerLockExitExec false =
        { listenerInstalled := false, onceDownInstalled := false } ∧
      (∀ fires : Bool, promiseSettles (pointerLockRequestExec true) fires = false) ∧
      (∀ fires : Bool, promiseSettles (pointerLockExitExec false) fires = false) := by
  refine ⟨rfl, rfl, fun fires => ?_, fun fires => ?_⟩ <;>
    simp [promiseSettles, pointerLockRequestExec, pointerLockExitExec]

end Tap
